import Mathlib

/-!
# `utils/redis.js`: the `RedisClient` wrapper

A shallow embedding of the class `RedisClient` of `src/utils/redis.js` and of the
store client it wraps, followed by the properties of its four methods
(`isAlive`, `get`, `set`, `del`).

The wrapper talks to a callback-style store client: the source wraps `client.get`,
`client.set` and `client.del` with `util.promisify` and reads `client.connected`.
A command of such a client takes a completion callback as its last argument; called
without one it returns a plain (non-thenable) value at once, and an error reply of
such a command is emitted as the client's `error` event.

Asynchronous execution is made explicit by a trace of events: a command is
`issued`, later `replied`, and the promise returned by a method is `resolved` or
`rejected` at a definite position of the trace.
-/

namespace FilesManager

/-! ## Data model -/

abbrev Key := String

abbrev Value := String

/-- An error reported by the store client; `text` is its string rendering. -/
structure StoreError where
  text : String
deriving DecidableEq, Repr

/-- The four store commands the wrapper sends. -/
inductive Command where
  | get (key : Key)
  | set (key : Key) (value : Value)
  | expire (key : Key) (time : Int)
  | del (key : Key)
deriving DecidableEq, Repr

/-- A successful reply of the store: `null`, a string, or an integer. -/
inductive Reply where
  | null
  | str (v : Value)
  | int (n : Int)
deriving DecidableEq, Repr

/-- What a command's completion callback receives: `(null, reply)` or `(err)`. -/
inductive Answer where
  | ok (r : Reply)
  | err (e : StoreError)
deriving DecidableEq, Repr

/-- Observable events, in the order in which they happen. -/
inductive Event where
  | issued (c : Command)
  | replied (c : Command) (a : Answer)
  | resolved
  | rejected (e : StoreError)
  | logged (line : String)
deriving DecidableEq, Repr

/-- Settlement of the promise returned by an `async` method. -/
inductive Outcome (α : Type) where
  | resolved (a : α)
  | rejected (e : StoreError)
deriving DecidableEq, Repr

/-- The store client returned by `createClient()`, over a store state `σ`:
its `connected` property (`none` when the property is undefined) and the effect of
one command on the store together with the answer handed to the callback. -/
structure Client (σ : Type) where
  connected : σ → Option Bool
  exec : Command → σ → Answer × σ

/-- The store state and everything observed so far. -/
structure World (σ : Type) where
  store : σ
  trace : List Event

/-- Commands issued in a trace, in order. -/
def issuedCommands : List Event → List Command
  | [] => []
  | Event.issued c :: es => c :: issuedCommands es
  | _ :: es => issuedCommands es

/-! ## The wrapper class -/

/-- The class `RedisClient`: its only field is `this.client`. -/
structure RedisClient (σ : Type) where
  client : Client σ

/-- The listener registered by the constructor:
`(error) => console.log("Redis client not connected to server: " + error)`. -/
def RedisClient.onError {σ : Type} (_self : RedisClient σ) (error : StoreError) : Event :=
  Event.logged ("Redis client not connected to server: " ++ error.text)

/-- The expression `await promisify(client.cmd).bind(client)(args)`: the command is issued
with a callback, the caller is suspended until the callback fires, and the awaited value is
the callback's answer (an `err` answer is thrown into the caller). -/
def awaitPromisified {σ : Type} (client : Client σ) (c : Command) (w : World σ) :
    Answer × World σ :=
  let r := client.exec c w.store
  (r.1, { store := r.2, trace := w.trace ++ [Event.issued c, Event.replied c r.1] })

/-- Result of calling a command method directly, without a callback. -/
structure Detached (σ : Type) where
  /-- The store once the command has been served. -/
  store : σ
  /-- Events that occur after the caller has continued. -/
  later : List Event

/-- The expression `this.client.cmd(args)` with no callback: the command is issued and the
call returns a non-thenable value immediately, so an `await` on it does not wait for the
reply. The reply arrives afterwards; an error reply has no callback to go to and is emitted
as the client's `error` event, which runs the constructor's listener. -/
def RedisClient.callWithoutCallback {σ : Type} (self : RedisClient σ) (c : Command) (s : σ) :
    Detached σ :=
  let r := self.client.exec c s
  { store := r.2
    later := Event.replied c r.1 ::
      (match r.1 with
       | Answer.ok _ => []
       | Answer.err e => [self.onError e]) }

/-- Method `isAlive()`: `if (this.client.connected) return true; return false;`. -/
def RedisClient.isAlive {σ : Type} (self : RedisClient σ) (w : World σ) : Bool × World σ :=
  if self.client.connected w.store = some true then (true, w) else (false, w)

/-- Method `get(key)`:
`const value = await promisify(this.client.get).bind(this.client)(key); return value;`. -/
def RedisClient.get {σ : Type} (self : RedisClient σ) (key : Key) (w : World σ) :
    Outcome Reply × World σ :=
  match awaitPromisified self.client (Command.get key) w with
  | (Answer.err e, w1) => (Outcome.rejected e, { w1 with trace := w1.trace ++ [Event.rejected e] })
  | (Answer.ok value, w1) => (Outcome.resolved value, { w1 with trace := w1.trace ++ [Event.resolved] })

/-- Method `set(key, value, time)`:
`await promisify(this.client.set).bind(this.client)(key, value);`
`await this.client.expire(key, time);`. -/
def RedisClient.set {σ : Type} (self : RedisClient σ) (key : Key) (value : Value) (time : Int)
    (w : World σ) : Outcome Unit × World σ :=
  match awaitPromisified self.client (Command.set key value) w with
  | (Answer.err e, w1) => (Outcome.rejected e, { w1 with trace := w1.trace ++ [Event.rejected e] })
  | (Answer.ok _, w1) =>
    let d := self.callWithoutCallback (Command.expire key time) w1.store
    (Outcome.resolved (),
      { store := d.store
        trace := w1.trace ++ [Event.issued (Command.expire key time), Event.resolved] ++ d.later })

/-- Method `del(key)`: `await promisify(this.client.del).bind(this.client)(key);`. -/
def RedisClient.del {σ : Type} (self : RedisClient σ) (key : Key) (w : World σ) :
    Outcome Unit × World σ :=
  match awaitPromisified self.client (Command.del key) w with
  | (Answer.err e, w1) => (Outcome.rejected e, { w1 with trace := w1.trace ++ [Event.rejected e] })
  | (Answer.ok _, w1) => (Outcome.resolved (), { w1 with trace := w1.trace ++ [Event.resolved] })

/-! ## The key-value store -/

/-- Modelled from the spec: one stored key of the external key-value store. It holds a value
and, when a TTL was applied, the instant (in seconds) at which the key becomes unavailable. -/
structure Entry where
  value : Value
  expiresAt : Option Int
deriving DecidableEq, Repr

/-- Modelled from the spec: a key with a TTL is available until that number of seconds has
elapsed; a key without TTL stays available. -/
def Entry.live (now : Int) (e : Entry) : Bool :=
  match e.expiresAt with
  | none => true
  | some t => decide (now < t)

/-- Modelled from the spec: the entry recorded under a key, if any. -/
def lookup (k : Key) : List (Key × Entry) → Option Entry
  | [] => none
  | p :: rest => if p.1 = k then some p.2 else lookup k rest

/-- Modelled from the spec: removal of a key. -/
def erase (k : Key) (es : List (Key × Entry)) : List (Key × Entry) :=
  es.filter (fun p => decide (p.1 ≠ k))

/-- Modelled from the spec: recording an entry under a key, replacing what was there. -/
def put (k : Key) (e : Entry) (es : List (Key × Entry)) : List (Key × Entry) :=
  (k, e) :: erase k es

/-- Modelled from the spec: the external key-value store behind the connection handle: a
clock in seconds, the string-keyed entries, the connectivity status of the handle, and the
rejections the store is going to answer to the next commands (`some e`: that command is
rejected with `e` and has no effect; `none`, or past the end of the list: it is served). -/
structure Store where
  now : Int
  entries : List (Key × Entry)
  connected : Bool
  faults : List (Option StoreError)
deriving DecidableEq, Repr

/-- Modelled from the spec: the entry of an available key (absent or expired keys have none). -/
def Store.find? (s : Store) (k : Key) : Option Entry :=
  match lookup k s.entries with
  | some e => if e.live s.now then some e else none
  | none => none

/-- Modelled from the spec: the value a read of `k` yields, `none` being the absent marker. -/
def Store.value? (s : Store) (k : Key) : Option Value :=
  (s.find? k).map Entry.value

/-- Modelled from the spec: what the store answers to a command it serves. A read returns the
stored value, or the absent marker if the key does not exist; expire and delete report
whether the key existed, and succeed either way. -/
def Store.reply (s : Store) : Command → Reply
  | Command.get k =>
    (match s.find? k with
     | some e => Reply.str e.value
     | none => Reply.null)
  | Command.set _ _ => Reply.str "OK"
  | Command.expire k _ => Reply.int (if (s.find? k).isSome then 1 else 0)
  | Command.del k => Reply.int (if (s.find? k).isSome then 1 else 0)

/-- Modelled from the spec: the entries after a served command: get changes nothing, set
records the value with no TTL, expire applies the TTL to an existing key, delete removes
the key. -/
def Store.entriesAfter (s : Store) : Command → List (Key × Entry)
  | Command.get _ => s.entries
  | Command.set k v => put k ⟨v, none⟩ s.entries
  | Command.expire k t =>
    (match s.find? k with
     | some e => put k ⟨e.value, some (s.now + t)⟩ s.entries
     | none => s.entries)
  | Command.del k => erase k s.entries

/-- Modelled from the spec: the store primitives get / set / expire / delete on a working
connection. -/
def Store.serve (c : Command) (s : Store) : Reply × Store :=
  (s.reply c, { s with entries := s.entriesAfter c })

/-- Modelled from the spec: the error of a command sent over an unavailable connection. -/
def connectionError : StoreError := ⟨"ConnectionError"⟩

/-- Modelled from the spec: one command against the store. It fails with a connection error
when the connection is unavailable, fails with the store's error when the store rejects it,
and is served otherwise. A failed command has no effect on the stored data. -/
def Store.exec (c : Command) (s : Store) : Answer × Store :=
  if s.connected then
    match s.faults with
    | [] => (Answer.ok (s.serve c).1, (s.serve c).2)
    | none :: fs =>
      (Answer.ok (Store.serve c { s with faults := fs }).1, (Store.serve c { s with faults := fs }).2)
    | some e :: fs => (Answer.err e, { s with faults := fs })
  else (Answer.err connectionError, s)

/-- Modelled from the spec: the passage of `d` seconds. -/
def Store.advance (d : Nat) (s : Store) : Store :=
  { s with now := s.now + d }

/-- Modelled from the spec: a healthy connection: connected, and no rejection pending. -/
def Store.healthy (s : Store) : Prop :=
  s.connected = true ∧ s.faults = []

instance (s : Store) : Decidable s.healthy := by
  unfold Store.healthy; infer_instance

/-- Modelled from the spec: the client handle over the store above. -/
def storeClient : Client Store where
  connected := fun s => some s.connected
  exec := Store.exec

/-- The module-level singleton `redisClient = new RedisClient()`. -/
def redisClient : RedisClient Store := ⟨storeClient⟩

/-- A store with no key, at time `0`, on a healthy connection. -/
def Store.empty : Store := { now := 0, entries := [], connected := true, faults := [] }

/-- A store whose address is unreachable. -/
def Store.unreachable : Store := { now := 0, entries := [], connected := false, faults := [] }

/-- The key a command addresses. -/
def Command.key : Command → Key
  | Command.get k => k
  | Command.set k _ => k
  | Command.expire k _ => k
  | Command.del k => k

/-- A store that serves the next command and rejects the one after it. -/
def Store.rejectingSecond : Store :=
  { Store.empty with
    faults := [none, some ⟨"ReplyError: ERR value is not an integer or out of range"⟩] }

/-- One step of a caller of the module: a method call, or the passage of time. -/
inductive Call where
  | isAlive
  | get (key : Key)
  | set (key : Key) (value : Value) (time : Int)
  | del (key : Key)
  | wait (seconds : Nat)
deriving DecidableEq, Repr

/-- The world after one step, each call being awaited before the next one starts. -/
def Call.run (c : Call) (w : World Store) : World Store :=
  match c with
  | Call.isAlive => (redisClient.isAlive w).2
  | Call.get k => (redisClient.get k w).2
  | Call.set k v t => (redisClient.set k v t w).2
  | Call.del k => (redisClient.del k w).2
  | Call.wait d => { w with store := w.store.advance d }

/-- The world after a sequence of steps. -/
def runCalls : List Call → World Store → World Store
  | [], w => w
  | c :: cs, w => runCalls cs (c.run w)

/-- Whether a step is a `set` on the key `k`. -/
def Call.sets (k : Key) : Call → Bool
  | Call.set j _ _ => decide (j = k)
  | _ => false

/-! ## Lemmas on the entries -/

theorem lookup_erase_self (k : Key) (es : List (Key × Entry)) : lookup k (erase k es) = none := by
  induction es with
  | nil => rfl
  | cons p rest ih =>
    by_cases h : p.1 = k
    · simpa [erase, List.filter_cons, h] using ih
    · simpa [erase, List.filter_cons, h, lookup] using ih

theorem lookup_erase_ne {k j : Key} (h : j ≠ k) (es : List (Key × Entry)) :
    lookup j (erase k es) = lookup j es := by
  induction es with
  | nil => rfl
  | cons p rest ih =>
    by_cases hp : p.1 = k
    · have hj : ¬ p.1 = j := fun e => h (e ▸ hp)
      have hc : erase k (p :: rest) = erase k rest := by simp [erase, List.filter_cons, hp]
      rw [hc, lookup, if_neg hj, ih]
    · have hc : erase k (p :: rest) = p :: erase k rest := by simp [erase, List.filter_cons, hp]
      rw [hc, lookup, lookup, ih]

theorem lookup_put_self (k : Key) (e : Entry) (es : List (Key × Entry)) :
    lookup k (put k e es) = some e := by
  simp [put, lookup]

theorem lookup_put_ne {k j : Key} (h : j ≠ k) (e : Entry) (es : List (Key × Entry)) :
    lookup j (put k e es) = lookup j es := by
  have hk : k ≠ j := fun x => h x.symm
  simp [put, lookup, hk, lookup_erase_ne h]

theorem erase_erase (k : Key) (es : List (Key × Entry)) : erase k (erase k es) = erase k es := by
  simp [erase, List.filter_filter]

/-! ## Lemmas on the store -/

theorem exec_healthy {s : Store} (h : s.healthy) (c : Command) :
    Store.exec c s = (Answer.ok (s.serve c).1, (s.serve c).2) := by
  obtain ⟨hc, hf⟩ := h
  simp [Store.exec, hc, hf]

/-- Pending rejections play no part in how a command is served. -/
theorem serve_with_faults (c : Command) (s : Store) (fs : List (Option StoreError)) :
    Store.serve c { s with faults := fs } =
      ((s.serve c).1, { (s.serve c).2 with faults := fs }) := by
  cases c <;> rfl

/-- The three ways a command can go: connection unavailable, rejected, served. -/
theorem exec_cases (c : Command) (s : Store) :
    (s.connected = false ∧ Store.exec c s = (Answer.err connectionError, s)) ∨
    (∃ e fs, s.connected = true ∧ s.faults = some e :: fs ∧
      Store.exec c s = (Answer.err e, { s with faults := fs })) ∨
    (∃ fs, s.connected = true ∧ (s.faults = [] ∧ fs = [] ∨ s.faults = none :: fs) ∧
      Store.exec c s = (Answer.ok (s.serve c).1, { (s.serve c).2 with faults := fs })) := by
  obtain ⟨now, es, conn, fl⟩ := s
  cases conn with
  | false => left; simp [Store.exec]
  | true =>
    right
    cases fl with
    | nil => right; exact ⟨[], rfl, Or.inl ⟨rfl, rfl⟩, rfl⟩
    | cons a fs =>
      cases a with
      | none =>
        right
        refine ⟨fs, rfl, Or.inr rfl, ?_⟩
        have h := serve_with_faults c ⟨now, es, true, none :: fs⟩ fs
        simp only [Store.exec, if_true]
        rw [h]
      | some e => left; exact ⟨e, fs, rfl, rfl, by simp [Store.exec]⟩

theorem exec_now (c : Command) (s : Store) : (Store.exec c s).2.now = s.now := by
  rcases exec_cases c s with ⟨_, h⟩ | ⟨e, fs, _, _, h⟩ | ⟨fs, _, _, h⟩
  · rw [h]
  · rw [h]
  · rw [h]; rfl

theorem exec_connected (c : Command) (s : Store) : (Store.exec c s).2.connected = s.connected := by
  rcases exec_cases c s with ⟨_, h⟩ | ⟨e, fs, _, _, h⟩ | ⟨fs, _, _, h⟩
  · rw [h]
  · rw [h]
  · rw [h]; rfl

/-- A rejected command leaves the entries as they were. -/
theorem exec_err_entries {c : Command} {s : Store} {e : StoreError}
    (h : (Store.exec c s).1 = Answer.err e) : (Store.exec c s).2.entries = s.entries := by
  rcases exec_cases c s with ⟨_, h1⟩ | ⟨e1, fs, _, _, h1⟩ | ⟨fs, _, _, h1⟩
  · rw [h1]
  · rw [h1]
  · rw [h1] at h; simp at h

/-- A served command acts on the entries as `serve` does. -/
theorem exec_ok_entries {c : Command} {s : Store} {r : Reply}
    (h : (Store.exec c s).1 = Answer.ok r) :
    (Store.exec c s).2.entries = (s.serve c).2.entries ∧ r = (s.serve c).1 := by
  rcases exec_cases c s with ⟨_, h1⟩ | ⟨e1, fs, _, _, h1⟩ | ⟨fs, _, _, h1⟩
  · rw [h1] at h; simp at h
  · rw [h1] at h; simp at h
  · rw [h1] at h ⊢
    simp only [Answer.ok.injEq] at h
    exact ⟨rfl, h.symm⟩

theorem find_of_lookup_none {s : Store} {k : Key} (h : lookup k s.entries = none) :
    s.find? k = none := by
  simp [Store.find?, h]

/-! ## Lemmas on traces and on the methods -/

theorem issuedCommands_append (xs ys : List Event) :
    issuedCommands (xs ++ ys) = issuedCommands xs ++ issuedCommands ys := by
  induction xs with
  | nil => rfl
  | cons x rest ih => cases x <;> simp [issuedCommands, ih]

/-- Method `get` in terms of the single read it performs. -/
theorem get_unfold {σ : Type} (self : RedisClient σ) (key : Key) (w : World σ) :
    self.get key w =
      match (self.client.exec (Command.get key) w.store).1 with
      | Answer.err e =>
        (Outcome.rejected e,
          { store := (self.client.exec (Command.get key) w.store).2
            trace := w.trace ++ [Event.issued (Command.get key),
              Event.replied (Command.get key) (Answer.err e), Event.rejected e] })
      | Answer.ok value =>
        (Outcome.resolved value,
          { store := (self.client.exec (Command.get key) w.store).2
            trace := w.trace ++ [Event.issued (Command.get key),
              Event.replied (Command.get key) (Answer.ok value), Event.resolved] }) := by
  unfold RedisClient.get awaitPromisified
  cases h : (self.client.exec (Command.get key) w.store).1 <;> simp [h]

/-- Method `del` in terms of the single delete it performs. -/
theorem del_unfold {σ : Type} (self : RedisClient σ) (key : Key) (w : World σ) :
    self.del key w =
      match (self.client.exec (Command.del key) w.store).1 with
      | Answer.err e =>
        (Outcome.rejected e,
          { store := (self.client.exec (Command.del key) w.store).2
            trace := w.trace ++ [Event.issued (Command.del key),
              Event.replied (Command.del key) (Answer.err e), Event.rejected e] })
      | Answer.ok r =>
        (Outcome.resolved (),
          { store := (self.client.exec (Command.del key) w.store).2
            trace := w.trace ++ [Event.issued (Command.del key),
              Event.replied (Command.del key) (Answer.ok r), Event.resolved] }) := by
  unfold RedisClient.del awaitPromisified
  cases h : (self.client.exec (Command.del key) w.store).1 <;> simp [h]

/-- Method `set` when its first command is rejected. -/
theorem set_unfold_err {σ : Type} (self : RedisClient σ) (key : Key) (value : Value) (time : Int)
    (w : World σ) (e : StoreError)
    (h : (self.client.exec (Command.set key value) w.store).1 = Answer.err e) :
    self.set key value time w =
      (Outcome.rejected e,
        { store := (self.client.exec (Command.set key value) w.store).2
          trace := w.trace ++ [Event.issued (Command.set key value),
            Event.replied (Command.set key value) (Answer.err e), Event.rejected e] }) := by
  unfold RedisClient.set awaitPromisified
  simp [h]

/-- Method `set` when its first command is served. -/
theorem set_unfold_ok {σ : Type} (self : RedisClient σ) (key : Key) (value : Value) (time : Int)
    (w : World σ) (r : Reply)
    (h : (self.client.exec (Command.set key value) w.store).1 = Answer.ok r) :
    self.set key value time w =
      (Outcome.resolved (),
        { store := (self.client.exec (Command.expire key time)
            (self.client.exec (Command.set key value) w.store).2).2
          trace := w.trace ++ [Event.issued (Command.set key value),
            Event.replied (Command.set key value) (Answer.ok r),
            Event.issued (Command.expire key time), Event.resolved] ++
            (self.callWithoutCallback (Command.expire key time)
              (self.client.exec (Command.set key value) w.store).2).later }) := by
  unfold RedisClient.set awaitPromisified
  simp [h, RedisClient.callWithoutCallback]

/-- Serving a command leaves the entry recorded under any other key alone. -/
theorem entriesAfter_other_key (s : Store) (c : Command) {j : Key} (h : j ≠ c.key) :
    lookup j (s.entriesAfter c) = lookup j s.entries := by
  cases c with
  | get k => rfl
  | set k v => exact lookup_put_ne h _ _
  | expire k t =>
    simp only [Store.entriesAfter]
    split
    · exact lookup_put_ne h _ _
    · rfl
  | del k => exact lookup_erase_ne h _

/-- A command, served or not, leaves the entry recorded under any other key alone. -/
theorem exec_other_key (s : Store) (c : Command) {j : Key} (h : j ≠ c.key) :
    lookup j (Store.exec c s).2.entries = lookup j s.entries := by
  rcases exec_cases c s with ⟨_, h1⟩ | ⟨e1, fs, _, _, h1⟩ | ⟨fs, _, _, h1⟩
  · rw [h1]
  · rw [h1]
  · rw [h1]; exact entriesAfter_other_key s c h

/-- A read, served or not, leaves all entries alone. -/
theorem exec_get_entries (s : Store) (k : Key) :
    (Store.exec (Command.get k) s).2.entries = s.entries := by
  rcases exec_cases (Command.get k) s with ⟨_, h1⟩ | ⟨e1, fs, _, _, h1⟩ | ⟨fs, _, _, h1⟩
  · rw [h1]
  · rw [h1]
  · rw [h1]; rfl

/-- On a healthy connection `get` resolves with the store's reply to one read. -/
theorem get_healthy {s : Store} (h : s.healthy) (tr : List Event) (k : Key) :
    redisClient.get k ⟨s, tr⟩ =
      (Outcome.resolved (s.reply (Command.get k)),
        { store := s
          trace := tr ++ [Event.issued (Command.get k),
            Event.replied (Command.get k) (Answer.ok (s.reply (Command.get k))),
            Event.resolved] }) := by
  rw [get_unfold]
  simp only [redisClient, storeClient, exec_healthy h]
  rfl

/-- On a healthy connection `del` resolves after one delete that removes the key. -/
theorem del_healthy {s : Store} (h : s.healthy) (tr : List Event) (k : Key) :
    redisClient.del k ⟨s, tr⟩ =
      (Outcome.resolved (),
        { store := { s with entries := erase k s.entries }
          trace := tr ++ [Event.issued (Command.del k),
            Event.replied (Command.del k) (Answer.ok (s.reply (Command.del k))),
            Event.resolved] }) := by
  rw [del_unfold]
  simp only [redisClient, storeClient, exec_healthy h]
  rfl

/-- After a served `SET k v` the key is available with value `v` and no TTL. -/
theorem find_after_set (s : Store) (k : Key) (v : Value) :
    Store.find? { s with entries := put k ⟨v, none⟩ s.entries } k = some ⟨v, none⟩ := by
  simp [Store.find?, lookup_put_self, Entry.live]

/-- On a healthy connection `set` resolves, having sent SET then EXPIRE, and leaves the key
with the value and the TTL; the promise is settled before the reply to EXPIRE arrives. -/
theorem set_healthy {s : Store} (h : s.healthy) (tr : List Event) (k : Key) (v : Value)
    (t : Int) :
    redisClient.set k v t ⟨s, tr⟩ =
      (Outcome.resolved (),
        { store := { s with entries := put k ⟨v, some (s.now + t)⟩ (put k ⟨v, none⟩ s.entries) }
          trace := tr ++ [Event.issued (Command.set k v),
            Event.replied (Command.set k v) (Answer.ok (Reply.str "OK")),
            Event.issued (Command.expire k t), Event.resolved,
            Event.replied (Command.expire k t) (Answer.ok (Reply.int 1))] }) := by
  have h1 : (Store.exec (Command.set k v) s) =
      (Answer.ok (Reply.str "OK"), { s with entries := put k ⟨v, none⟩ s.entries }) :=
    exec_healthy h _
  have h2 : Store.healthy { s with entries := put k ⟨v, none⟩ s.entries } := h
  have h3 := exec_healthy h2 (Command.expire k t)
  have hf := find_after_set s k v
  rw [set_unfold_ok redisClient k v t ⟨s, tr⟩ (Reply.str "OK") (by simp [redisClient, storeClient, h1])]
  simp only [redisClient, storeClient, h1, h3, RedisClient.callWithoutCallback, Store.serve,
    Store.reply, Store.entriesAfter, hf]
  simp

/-- Each step keeps a healthy connection healthy. -/
theorem Call.run_healthy (c : Call) (w : World Store) (h : w.store.healthy) :
    (c.run w).store.healthy := by
  obtain ⟨s, tr⟩ := w
  cases c with
  | isAlive => simp only [Call.run, RedisClient.isAlive]; split <;> exact h
  | get k => simp only [Call.run, get_healthy h]; exact h
  | set k v t => simp only [Call.run, set_healthy h]; exact h
  | del k => simp only [Call.run, del_healthy h]; exact h
  | wait d => exact h

/-- A step that is not a `set` on `k` keeps `k` without entry, on a healthy connection. -/
theorem Call.run_never_set (k : Key) (c : Call) (w : World Store) (hc : c.sets k = false)
    (h : w.store.healthy) (hl : lookup k w.store.entries = none) :
    lookup k (c.run w).store.entries = none := by
  obtain ⟨s, tr⟩ := w
  cases c with
  | isAlive => simp only [Call.run, RedisClient.isAlive]; split <;> exact hl
  | get j => simp only [Call.run, get_healthy h]; exact hl
  | set j v t =>
    have hj : k ≠ j := by
      intro e
      simp [Call.sets, e] at hc
    simp only [Call.run, set_healthy h]
    rw [lookup_put_ne hj, lookup_put_ne hj]
    exact hl
  | del j =>
    simp only [Call.run, del_healthy h]
    by_cases hj : k = j
    · rw [hj]; exact lookup_erase_self j _
    · rw [lookup_erase_ne hj]; exact hl
  | wait d => exact hl

/-- A key that no step sets has no entry after the steps, starting without one. -/
theorem runCalls_never_set (k : Key) (calls : List Call) (w : World Store)
    (hc : ∀ c ∈ calls, c.sets k = false)
    (h : w.store.healthy ∧ lookup k w.store.entries = none) :
    (runCalls calls w).store.healthy ∧ lookup k (runCalls calls w).store.entries = none := by
  induction calls generalizing w with
  | nil => exact h
  | cons c cs ih =>
    have hc1 : c.sets k = false := hc c (List.mem_cons_self _ _)
    have hcs : ∀ x ∈ cs, x.sets k = false := fun x hx => hc x (List.mem_cons_of_mem _ hx)
    exact ih (c.run w) hcs ⟨c.run_healthy w h.1, c.run_never_set k w hc1 h.1 h.2⟩

/-! ## Properties of the methods -/

/-- C8: `isAlive()` returns `true` exactly when the `connected` status of the underlying client
is `true`, and `false` otherwise (also when the status is undefined); it issues no command and
leaves the store and the trace as they were. -/
theorem isAlive_reports_connected {σ : Type} (self : RedisClient σ) (w : World σ) :
    (self.isAlive w).1 = decide (self.client.connected w.store = some true) ∧
    (self.isAlive w).2.store = w.store ∧
    (self.isAlive w).2.trace = w.trace ∧
    issuedCommands (self.isAlive w).2.trace = issuedCommands w.trace := by
  unfold RedisClient.isAlive
  by_cases h : self.client.connected w.store = some true <;> simp [h]

/-- C7: `get(key)` rejects with an error exactly when its single read fails with that error;
one read is issued and nothing else. Against an unreachable store `isAlive()` is `false` and
`get("x")` rejects. -/
theorem get_rejects_iff_read_fails {σ : Type} (self : RedisClient σ) (key : Key) (w : World σ)
    (e : StoreError) :
    ((self.get key w).1 = Outcome.rejected e ↔
      (self.client.exec (Command.get key) w.store).1 = Answer.err e) ∧
    issuedCommands (self.get key w).2.trace = issuedCommands w.trace ++ [Command.get key] ∧
    (redisClient.isAlive ⟨Store.unreachable, []⟩).1 = false ∧
    (redisClient.get "x" ⟨Store.unreachable, []⟩).1 = Outcome.rejected connectionError := by
  refine ⟨?_, ?_, by decide, by decide⟩
  · rw [get_unfold]
    cases h : (self.client.exec (Command.get key) w.store).1 <;> simp
  · rw [get_unfold]
    cases h : (self.client.exec (Command.get key) w.store).1 <;>
      simp [issuedCommands_append, issuedCommands]

/-- C3: when the SET step of `set(key, value, time)` fails, the call rejects with that error,
the failed SET is the only command sent (no EXPIRE, no DEL), and the stored entries, the clock
and the connection status are left as they were. -/
theorem set_failure_sends_nothing_more (s : Store) (tr : List Event) (key : Key) (value : Value)
    (time : Int) (e : StoreError)
    (h : (Store.exec (Command.set key value) s).1 = Answer.err e) :
    (redisClient.set key value time ⟨s, tr⟩).1 = Outcome.rejected e ∧
    (redisClient.set key value time ⟨s, tr⟩).2.trace =
      tr ++ [Event.issued (Command.set key value),
        Event.replied (Command.set key value) (Answer.err e), Event.rejected e] ∧
    issuedCommands (redisClient.set key value time ⟨s, tr⟩).2.trace =
      issuedCommands tr ++ [Command.set key value] ∧
    (redisClient.set key value time ⟨s, tr⟩).2.store.entries = s.entries ∧
    (redisClient.set key value time ⟨s, tr⟩).2.store.now = s.now ∧
    (redisClient.set key value time ⟨s, tr⟩).2.store.connected = s.connected := by
  have hu := set_unfold_err redisClient key value time ⟨s, tr⟩ e h
  rw [hu]
  refine ⟨rfl, rfl, ?_, exec_err_entries h, exec_now _ s, exec_connected _ s⟩
  simp [issuedCommands_append, issuedCommands]

/-- Witness of C3: the SET is rejected by the store. -/
theorem set_failure_sends_nothing_more_witness :
    (redisClient.set "k" "v" 60
        ⟨{ Store.empty with faults := [some ⟨"ERR"⟩] }, []⟩).1 = Outcome.rejected ⟨"ERR"⟩ ∧
    issuedCommands (redisClient.set "k" "v" 60
        ⟨{ Store.empty with faults := [some ⟨"ERR"⟩] }, []⟩).2.trace = [Command.set "k" "v"] :=
  have h := set_failure_sends_nothing_more { Store.empty with faults := [some ⟨"ERR"⟩] } []
    "k" "v" 60 ⟨"ERR"⟩ (by decide)
  ⟨h.1, h.2.2.1⟩

/-- C5: on a healthy connection `get(key)` issues a single read and resolves with the value
stored under the key when the key exists and with `null` when it does not; in particular it
resolves with `null` for a key that no earlier call has set. -/
theorem get_returns_stored_value (s : Store) (tr : List Event) (key : Key) (h : s.healthy) :
    (redisClient.get key ⟨s, tr⟩).1 =
      Outcome.resolved (match s.value? key with
        | some v => Reply.str v
        | none => Reply.null) ∧
    issuedCommands (redisClient.get key ⟨s, tr⟩).2.trace =
      issuedCommands tr ++ [Command.get key] ∧
    (∀ calls : List Call, s.entries = [] → (∀ c ∈ calls, c.sets key = false) →
      (redisClient.get key (runCalls calls ⟨s, tr⟩)).1 = Outcome.resolved Reply.null) := by
  refine ⟨?_, ?_, ?_⟩
  · rw [get_healthy h]
    simp only [Store.reply, Store.value?]
    cases s.find? key <;> rfl
  · rw [get_healthy h]
    simp [issuedCommands_append, issuedCommands]
  · intro calls he hc
    have hinv := runCalls_never_set key calls ⟨s, tr⟩ hc ⟨h, by simp [he, lookup]⟩
    obtain ⟨hh, hl⟩ := hinv
    have hw : runCalls calls ⟨s, tr⟩ =
        ⟨(runCalls calls ⟨s, tr⟩).store, (runCalls calls ⟨s, tr⟩).trace⟩ := rfl
    rw [hw, get_healthy hh]
    simp [Store.reply, find_of_lookup_none hl]

/-- Witness of C5: a stored key is read back, on a healthy connection. -/
theorem get_returns_stored_value_witness :
    Store.healthy { Store.empty with entries := [("a", ⟨"1", none⟩)] } ∧
    (redisClient.get "a" ⟨{ Store.empty with entries := [("a", ⟨"1", none⟩)] }, []⟩).1 =
      Outcome.resolved (Reply.str "1") ∧
    (redisClient.get "b"
      (runCalls [Call.set "a" "1" 5, Call.wait 2, Call.del "c"] ⟨Store.empty, []⟩)).1 =
      Outcome.resolved Reply.null :=
  ⟨by decide,
   (get_returns_stored_value { Store.empty with entries := [("a", ⟨"1", none⟩)] } [] "a"
      (by decide)).1,
   (get_returns_stored_value Store.empty [] "b" (by decide)).2.2
      [Call.set "a" "1" 5, Call.wait 2, Call.del "c"] rfl (by decide)⟩

/-- C6: on a healthy connection `del(key)` resolves whether or not the key exists, a following
`get(key)` resolves with `null`, and a second `del(key)` resolves too and leaves the store as
the first one left it. -/
theorem del_then_get_is_absent (s : Store) (tr : List Event) (key : Key) (h : s.healthy) :
    (redisClient.del key ⟨s, tr⟩).1 = Outcome.resolved () ∧
    (redisClient.get key (redisClient.del key ⟨s, tr⟩).2).1 = Outcome.resolved Reply.null ∧
    (redisClient.del key (redisClient.del key ⟨s, tr⟩).2).1 = Outcome.resolved () ∧
    (redisClient.del key (redisClient.del key ⟨s, tr⟩).2).2.store =
      (redisClient.del key ⟨s, tr⟩).2.store := by
  have h1 : Store.healthy { s with entries := erase key s.entries } := h
  rw [del_healthy h]
  refine ⟨rfl, ?_, ?_, ?_⟩
  · rw [get_healthy h1]
    have hl : lookup key (erase key s.entries) = none := lookup_erase_self key _
    simp [Store.reply, Store.find?, hl]
  · rw [del_healthy h1]
  · rw [del_healthy h1]
    simp [erase_erase]

/-- Witness of C6: deleting an existing key and a key that does not exist. -/
theorem del_then_get_is_absent_witness :
    Store.healthy { Store.empty with entries := [("a", ⟨"1", none⟩)] } ∧
    (redisClient.get "a"
      (redisClient.del "a" ⟨{ Store.empty with entries := [("a", ⟨"1", none⟩)] }, []⟩).2).1 =
      Outcome.resolved Reply.null ∧
    (redisClient.del "a" ⟨Store.empty, []⟩).1 = Outcome.resolved () :=
  ⟨by decide,
   (del_then_get_is_absent { Store.empty with entries := [("a", ⟨"1", none⟩)] } [] "a"
      (by decide)).2.1,
   (del_then_get_is_absent Store.empty [] "a" (by decide)).1⟩

/-- C4: for a TTL `time > 0` on a healthy connection, after `set(key, value, time)` a
`get(key)` made `d` seconds later resolves with `value` when `d < time` and with `null` when
`d ≥ time`. -/
theorem set_then_get_until_expiry (s : Store) (tr : List Event) (key : Key) (value : Value)
    (time : Int) (d : Nat) (ht : 0 < time) (h : s.healthy) :
    (redisClient.set key value time ⟨s, tr⟩).1 = Outcome.resolved () ∧
    (redisClient.get key (redisClient.set key value time ⟨s, tr⟩).2).1 =
      Outcome.resolved (Reply.str value) ∧
    ((d : Int) < time →
      (redisClient.get key
        ⟨(redisClient.set key value time ⟨s, tr⟩).2.store.advance d,
          (redisClient.set key value time ⟨s, tr⟩).2.trace⟩).1 =
        Outcome.resolved (Reply.str value)) ∧
    (time ≤ (d : Int) →
      (redisClient.get key
        ⟨(redisClient.set key value time ⟨s, tr⟩).2.store.advance d,
          (redisClient.set key value time ⟨s, tr⟩).2.trace⟩).1 =
        Outcome.resolved Reply.null) := by
  rw [set_healthy h]
  have h1 : Store.healthy (Store.advance d
      { s with entries := put key ⟨value, some (s.now + time)⟩ (put key ⟨value, none⟩ s.entries) }) := h
  have h0 : Store.healthy
      { s with entries := put key ⟨value, some (s.now + time)⟩ (put key ⟨value, none⟩ s.entries) } := h
  refine ⟨rfl, ?_, ?_, ?_⟩
  · rw [get_healthy h0]
    simp [Store.reply, Store.find?, lookup_put_self, Entry.live, ht]
  · intro hd
    rw [get_healthy h1]
    simp [Store.reply, Store.find?, Store.advance, lookup_put_self, Entry.live, hd]
  · intro hd
    rw [get_healthy h1]
    have hn : ¬ (d : Int) < time := not_lt.mpr hd
    simp [Store.reply, Store.find?, Store.advance, lookup_put_self, Entry.live, hn]

/-- Witness of C4: `set("session:42", "userA", 60)`, then `get` at once and 61 seconds later. -/
theorem set_then_get_until_expiry_witness :
    (0 : Int) < 60 ∧ Store.empty.healthy ∧
    (redisClient.get "session:42"
      ⟨(redisClient.set "session:42" "userA" 60 ⟨Store.empty, []⟩).2.store.advance 0,
        (redisClient.set "session:42" "userA" 60 ⟨Store.empty, []⟩).2.trace⟩).1 =
      Outcome.resolved (Reply.str "userA") ∧
    (redisClient.get "session:42"
      ⟨(redisClient.set "session:42" "userA" 60 ⟨Store.empty, []⟩).2.store.advance 61,
        (redisClient.set "session:42" "userA" 60 ⟨Store.empty, []⟩).2.trace⟩).1 =
      Outcome.resolved Reply.null :=
  ⟨by decide, by decide,
   (set_then_get_until_expiry Store.empty [] "session:42" "userA" 60 0 (by decide)
      (by decide)).2.2.1 (by decide),
   (set_then_get_until_expiry Store.empty [] "session:42" "userA" 60 61 (by decide)
      (by decide)).2.2.2 (by decide)⟩

/-- C1: on a healthy store `set("session:42", "userA", 60)` sends SET then EXPIRE and leaves
the key with the value and the TTL, but its promise is resolved after the EXPIRE has been
issued and before the reply to it has arrived: the second step is not waited for. -/
theorem set_resolves_before_expire_completes :
    (redisClient.set "session:42" "userA" 60 ⟨Store.empty, []⟩).2.trace =
      [Event.issued (Command.set "session:42" "userA"),
       Event.replied (Command.set "session:42" "userA") (Answer.ok (Reply.str "OK")),
       Event.issued (Command.expire "session:42" 60),
       Event.resolved,
       Event.replied (Command.expire "session:42" 60) (Answer.ok (Reply.int 1))] ∧
    lookup "session:42"
      (redisClient.set "session:42" "userA" 60 ⟨Store.empty, []⟩).2.store.entries =
      some ⟨"userA", some 60⟩ := by
  decide

/-- C2: when the SET step is served and the store rejects the EXPIRE step, the promise of
`set("k", "v", 60)` is resolved, not rejected; the error only reaches the listener of the
constructor, which logs it. -/
theorem set_resolves_although_expire_fails :
    (Store.exec (Command.set "k" "v") Store.rejectingSecond).1 = Answer.ok (Reply.str "OK") ∧
    (Store.exec (Command.expire "k" 60)
      (Store.exec (Command.set "k" "v") Store.rejectingSecond).2).1 =
      Answer.err ⟨"ReplyError: ERR value is not an integer or out of range"⟩ ∧
    (redisClient.set "k" "v" 60 ⟨Store.rejectingSecond, []⟩).1 = Outcome.resolved () ∧
    (redisClient.set "k" "v" 60 ⟨Store.rejectingSecond, []⟩).2.trace =
      [Event.issued (Command.set "k" "v"),
       Event.replied (Command.set "k" "v") (Answer.ok (Reply.str "OK")),
       Event.issued (Command.expire "k" 60),
       Event.resolved,
       Event.replied (Command.expire "k" 60)
         (Answer.err ⟨"ReplyError: ERR value is not an integer or out of range"⟩),
       Event.logged ("Redis client not connected to server: " ++
         "ReplyError: ERR value is not an integer or out of range")] := by
  decide

/-- C9: when the SET step of `set(key, value, time)` is served and the store rejects the
EXPIRE step, only SET and EXPIRE have been sent (no DEL), the key is recorded with the value
and no TTL, and on a connection that is healthy afterwards `get(key)` resolves with the value,
at once and after any number of seconds. -/
theorem expire_rejected_keeps_value_without_ttl (s : Store) (tr : List Event) (key : Key)
    (value : Value) (time : Int) (r : Reply) (e : StoreError) (d : Nat)
    (hset : (Store.exec (Command.set key value) s).1 = Answer.ok r)
    (hexp : (Store.exec (Command.expire key time)
      (Store.exec (Command.set key value) s).2).1 = Answer.err e)
    (hafter : (redisClient.set key value time ⟨s, tr⟩).2.store.healthy) :
    issuedCommands (redisClient.set key value time ⟨s, tr⟩).2.trace =
      issuedCommands tr ++ [Command.set key value, Command.expire key time] ∧
    lookup key (redisClient.set key value time ⟨s, tr⟩).2.store.entries =
      some ⟨value, none⟩ ∧
    (redisClient.get key (redisClient.set key value time ⟨s, tr⟩).2).1 =
      Outcome.resolved (Reply.str value) ∧
    (redisClient.get key
      ⟨(redisClient.set key value time ⟨s, tr⟩).2.store.advance d,
        (redisClient.set key value time ⟨s, tr⟩).2.trace⟩).1 =
      Outcome.resolved (Reply.str value) := by
  have hu := set_unfold_ok redisClient key value time ⟨s, tr⟩ r hset
  have hent : lookup key (redisClient.set key value time ⟨s, tr⟩).2.store.entries =
      some ⟨value, none⟩ := by
    rw [hu]
    show lookup key (Store.exec (Command.expire key time)
      (Store.exec (Command.set key value) s).2).2.entries = _
    rw [exec_err_entries hexp, (exec_ok_entries hset).1]
    exact lookup_put_self key _ _
  have hadv : Store.healthy ((redisClient.set key value time ⟨s, tr⟩).2.store.advance d) := hafter
  have hw : (redisClient.set key value time ⟨s, tr⟩).2 =
      ⟨(redisClient.set key value time ⟨s, tr⟩).2.store,
        (redisClient.set key value time ⟨s, tr⟩).2.trace⟩ := rfl
  refine ⟨?_, hent, ?_, ?_⟩
  · rw [hu]
    have hl : (redisClient.callWithoutCallback (Command.expire key time)
        (redisClient.client.exec (Command.set key value) s).2).later =
        [Event.replied (Command.expire key time) (Answer.err e), redisClient.onError e] := by
      have hexp2 : (redisClient.client.exec (Command.expire key time)
          (redisClient.client.exec (Command.set key value) s).2).1 = Answer.err e := hexp
      simp [RedisClient.callWithoutCallback, hexp2]
    simp [hl, issuedCommands_append, issuedCommands, RedisClient.onError]
  · rw [hw, get_healthy hafter]
    simp [Store.reply, Store.find?, hent, Entry.live]
  · rw [get_healthy hadv]
    have hent2 : lookup key
        ((redisClient.set key value time ⟨s, tr⟩).2.store.advance d).entries =
        some ⟨value, none⟩ := hent
    simp [Store.reply, Store.find?, hent2, Entry.live]

/-- Witness of C9: SET is served, EXPIRE is rejected, the value stays without TTL. -/
theorem expire_rejected_keeps_value_without_ttl_witness :
    lookup "k" (redisClient.set "k" "v" 60 ⟨Store.rejectingSecond, []⟩).2.store.entries =
      some ⟨"v", none⟩ ∧
    (redisClient.get "k"
      ⟨(redisClient.set "k" "v" 60 ⟨Store.rejectingSecond, []⟩).2.store.advance 1000,
        (redisClient.set "k" "v" 60 ⟨Store.rejectingSecond, []⟩).2.trace⟩).1 =
      Outcome.resolved (Reply.str "v") :=
  have h := expire_rejected_keeps_value_without_ttl Store.rejectingSecond [] "k" "v" 60
    (Reply.str "OK") ⟨"ReplyError: ERR value is not an integer or out of range"⟩ 1000
    (by decide) (by decide) (by decide)
  ⟨h.2.1, h.2.2.2⟩

/-- C10: `set(key, ..)` and `del(key)` leave the entry (value and expiry) of every other key,
and the clock, as they were; `get(key)` leaves all entries and the clock as they were. -/
theorem operations_touch_only_their_key (s : Store) (tr : List Event) (key other : Key)
    (value : Value) (time : Int) (h : other ≠ key) :
    lookup other (redisClient.set key value time ⟨s, tr⟩).2.store.entries =
      lookup other s.entries ∧
    (redisClient.set key value time ⟨s, tr⟩).2.store.now = s.now ∧
    lookup other (redisClient.del key ⟨s, tr⟩).2.store.entries = lookup other s.entries ∧
    (redisClient.del key ⟨s, tr⟩).2.store.now = s.now ∧
    (redisClient.get key ⟨s, tr⟩).2.store.entries = s.entries ∧
    (redisClient.get key ⟨s, tr⟩).2.store.now = s.now := by
  have hget : (redisClient.get key ⟨s, tr⟩).2.store = (Store.exec (Command.get key) s).2 := by
    rw [get_unfold]
    cases hx : (redisClient.client.exec (Command.get key) s).1 <;> rfl
  have hdel : (redisClient.del key ⟨s, tr⟩).2.store = (Store.exec (Command.del key) s).2 := by
    rw [del_unfold]
    cases hx : (redisClient.client.exec (Command.del key) s).1 <;> rfl
  have hset : (redisClient.set key value time ⟨s, tr⟩).2.store =
        (Store.exec (Command.set key value) s).2 ∨
      (redisClient.set key value time ⟨s, tr⟩).2.store =
        (Store.exec (Command.expire key time) (Store.exec (Command.set key value) s).2).2 := by
    cases hx : (Store.exec (Command.set key value) s).1 with
    | err e => left; rw [set_unfold_err redisClient key value time ⟨s, tr⟩ e hx]; rfl
    | ok r => right; rw [set_unfold_ok redisClient key value time ⟨s, tr⟩ r hx]; rfl
  refine ⟨?_, ?_, ?_, ?_, ?_, ?_⟩
  · rcases hset with hs | hs
    · rw [hs]; exact exec_other_key s _ h
    · rw [hs, exec_other_key _ (Command.expire key time) h]; exact exec_other_key s _ h
  · rcases hset with hs | hs
    · rw [hs]; exact exec_now _ s
    · rw [hs, exec_now, exec_now]
  · rw [hdel]; exact exec_other_key s _ h
  · rw [hdel]; exact exec_now _ s
  · rw [hget]; exact exec_get_entries s key
  · rw [hget]; exact exec_now _ s

/-- Witness of C10: two distinct keys. -/
theorem operations_touch_only_their_key_witness :
    "b" ≠ "a" ∧
    lookup "b" (redisClient.set "a" "2" 5
      ⟨{ Store.empty with entries := [("b", ⟨"1", some 9⟩)] }, []⟩).2.store.entries =
      lookup "b" [("b", ⟨"1", some 9⟩)] :=
  ⟨by decide,
   (operations_touch_only_their_key { Store.empty with entries := [("b", ⟨"1", some 9⟩)] } []
      "a" "b" "2" 5 (by decide)).1⟩

end FilesManager
